import Mathlib

/-!
Verification development for the bgpkit-api request-to-query translation and
result-normalization engine (Rust sources under src/src/api and src/src/db).

Conventions of the shallow embedding:
* Calendar dates (chrono `Date<Utc>`) are day numbers: `Nat` counting days
  since the civil era base 0000-03-01 (Hinnant's algorithm, which chrono's
  calendar agrees with), widened to `Int` once day arithmetic from exclusivity
  adjustment may occur.
* `NaiveDateTime` values are `Int` seconds since the Unix epoch.
* Rust panics (`unwrap`, out-of-bounds indexing) are modelled with `Option`
  (`none` = panic); handler errors (`Result<_, ApiError>`) with `Except`.
* `usize` arithmetic is modelled with explicit wrap-around modulo `2 ^ 64`
  (release-build semantics; debug builds would panic at the same inputs).
-/

namespace BgpkitApi

/-! ### Calendar arithmetic (model of chrono date handling) -/

def isLeapYear (y : Nat) : Bool :=
  y % 4 = 0 && (y % 100 != 0 || y % 400 = 0)

def daysInMonth (y m : Nat) : Nat :=
  if m = 2 then (if isLeapYear y then 29 else 28)
  else if m = 4 ∨ m = 6 ∨ m = 9 ∨ m = 11 then 30
  else 31

/-- Day number of the civil date y-m-d, counted from the era base 0000-03-01
(Howard Hinnant's `days_from_civil`, restricted to `Nat` since the service only
handles modern dates). -/
def daysFromCivil (y m d : Nat) : Nat :=
  let y2 := if m ≤ 2 then y - 1 else y
  let era := y2 / 400
  let yoe := y2 % 400
  let mp := (m + 9) % 12
  let doy := (153 * mp + 2) / 5 + d - 1
  let doe := yoe * 365 + yoe / 4 - yoe / 100 + doy
  era * 146097 + doe

/-- Inverse of `daysFromCivil` (Hinnant's `civil_from_days`), used to print
dates back out. -/
def civilFromDays (g : Nat) : Nat × Nat × Nat :=
  let era := g / 146097
  let doe := g % 146097
  let yoe := (doe - doe / 1460 + doe / 36524 - doe / 146096) / 365
  let doy := doe - (365 * yoe + yoe / 4 - yoe / 100)
  let mp := (5 * doy + 2) / 153
  let d := doy - (153 * mp + 2) / 5 + 1
  let m := if mp < 10 then mp + 3 else mp - 9
  let y := yoe + era * 400
  (if m ≤ 2 then y + 1 else y, m, d)

/-- Day number of the Unix epoch 1970-01-01 in the era-based counting. -/
def epochDays : Nat := 719468

/-! ### Character and string helpers mirroring the Rust std operations used -/

def digitChar (n : Nat) : Char :=
  match n with
  | 0 => '0' | 1 => '1' | 2 => '2' | 3 => '3' | 4 => '4'
  | 5 => '5' | 6 => '6' | 7 => '7' | 8 => '8' | _ => '9'

def natDigitsAux : Nat → Nat → List Char
  | 0, _ => []
  | fuel + 1, n =>
    if n < 10 then [digitChar n]
    else natDigitsAux fuel (n / 10) ++ [digitChar (n % 10)]

/-- Decimal digits of `n`, most significant first. -/
def natDigits (n : Nat) : List Char := natDigitsAux (n + 1) n

/-- Zero-padded decimal rendering, model of chrono's `%Y` / `%m` / `%d` /
`%H` / `%M` / `%S` fields. -/
def padNum (w n : Nat) : String :=
  let ds := natDigits n
  String.mk (List.replicate (w - ds.length) '0' ++ ds)

/-- Digit list to number; `none` when empty or a non-digit occurs
(model of the digit-field part of the Rust numeric parsers). -/
def digitsToNat : List Char → Option Nat
  | [] => none
  | cs =>
    if cs.all (fun c => c.isDigit) then
      some (cs.foldl (fun acc c => acc * 10 + (c.toNat - 48)) 0)
    else none

def parseNatStr (s : String) : Option Nat := digitsToNat s.toList

/-- Model of Rust `char::is_ascii_punctuation`. -/
def isAsciiPunct (c : Char) : Bool :=
  (33 ≤ c.toNat && c.toNat ≤ 47) || (58 ≤ c.toNat && c.toNat ≤ 64) ||
  (91 ≤ c.toNat && c.toNat ≤ 96) || (123 ≤ c.toNat && c.toNat ≤ 126)

/-- Model of Rust `str::trim_matches`: strip matching characters from both
ends. -/
def trimMatches (p : Char → Bool) (s : String) : String :=
  String.mk (((s.toList.dropWhile p).reverse.dropWhile p).reverse)

/-- Split a character list at every occurrence of `c`
(model of Rust `str::split` with a one-character separator). -/
def splitOnChar (c : Char) : List Char → List (List Char)
  | [] => [[]]
  | a :: rest =>
    match splitOnChar c rest with
    | [] => [[]]
    | g :: gs => if a == c then [] :: g :: gs else (a :: g) :: gs

def splitStr (c : Char) (s : String) : List String :=
  (splitOnChar c s.toList).map String.mk

/-- Model of Rust `str::starts_with(char)`. -/
def firstCharIs (s : String) (c : Char) : Bool :=
  match s.toList with
  | [] => false
  | a :: _ => a == c

/-- Model of Rust `str::ends_with(char)`. -/
def lastCharIs (s : String) (c : Char) : Bool :=
  match s.toList.reverse with
  | [] => false
  | a :: _ => a == c

def leadsWith : List Char → List Char → Bool
  | [], _ => true
  | _ :: _, [] => false
  | a :: l1, b :: l2 => a == b && leadsWith l1 l2

/-- Model of Rust `str::contains(&str)`: some suffix of `hay` starts with
`needle`. -/
def listContains (hay needle : List Char) : Bool :=
  (List.range (hay.length + 1)).any (fun i => leadsWith needle (hay.drop i))

def strContains (hay needle : String) : Bool :=
  listContains hay.toList needle.toList

/-! ### ROA interval normalization (src/src/api/roas.rs) -/

/-- Model of the per-endpoint date parse in `to_roas_entry`
(`Utc.datetime_from_str(format!("\x7b\x7dT00:00:00Z", s), "%Y-%m-%dT%H:%M:%SZ")`):
a `YYYY-MM-DD` string becomes a day number, `none` on any parse failure
(which the Rust code `unwrap`s, i.e. panics on). -/
def parseDate (s : String) : Option Nat :=
  match splitStr '-' s with
  | [ys, ms, ds] => do
    let y ← parseNatStr ys
    let m ← parseNatStr ms
    let d ← parseNatStr ds
    if 1 ≤ m ∧ m ≤ 12 ∧ 1 ≤ d ∧ d ≤ daysInMonth y m then
      some (daysFromCivil y m d)
    else none
  | _ => none

/-- The unadjusted endpoint pair of one raw interval string: trim ASCII
punctuation from both ends, split on commas, parse fields 0 and 1 as dates
(`none` models the panic when a field is missing or unparsable). -/
def rawDatePair (s : String) : Option (Int × Int) :=
  match splitStr ',' (trimMatches isAsciiPunct s) with
  | d0s :: d1s :: _ => do
    let a ← parseDate d0s
    let b ← parseDate d1s
    some ((a : Int), (b : Int))
  | _ => none

/-- Full parse of one raw interval string, applying the exclusivity
adjustment: a leading `(` advances the start one day, a trailing `)` retracts
the end one day (roas.rs lines 56-70). -/
def parseDateRange (s : String) : Option (Int × Int) :=
  match rawDatePair s with
  | none => none
  | some (a, b) =>
    some (a + (if firstCharIs s '(' then 1 else 0),
          b - (if lastCharIs s ')' then 1 else 0))

/-- Parse every raw interval of a record in order; the Rust code `unwrap`s
inside `map`, so the first failure aborts (is `none`). -/
def parseRanges : List String → Option (List (Int × Int))
  | [] => some []
  | s :: rest => do
    let p ← parseDateRange s
    let ps ← parseRanges rest
    some (p :: ps)

/-- The gap-merging loop of `to_roas_entry` (roas.rs lines 89-100): running
interval `(cs, ce)`; a subsequent interval `(d0, d1)` is merged when
`cur_end == date_0 - 2 days`, otherwise the running interval is flushed. -/
def fixGapsGo (cs ce : Int) : List (Int × Int) → List (Int × Int)
  | [] => [(cs, ce)]
  | (d0, d1) :: rest =>
    if ce = d0 - 2 then fixGapsGo cs d1 rest
    else (cs, ce) :: fixGapsGo d0 d1 rest

/-- The whole `fix_gaps` block: it unconditionally reads `date_ranges[0]`,
so an empty list is a panic (`none`). -/
def fixGapsList : List (Int × Int) → Option (List (Int × Int))
  | [] => none
  | (cs, ce) :: rest => some (fixGapsGo cs ce rest)

/-- Raw ROA database record (struct `RoasRawEntry`); `pfx` models the Rust
field named p-r-e-f-i-x. -/
structure RoasRawEntry where
  asn : Nat
  max_len : Nat
  pfx : String
  tal : String
  date_ranges : List String
deriving DecidableEq, Repr

/-- Normalized ROA record (struct `RoasEntry`). -/
structure RoasEntry where
  asn : Nat
  max_len : Nat
  pfx : String
  tal : String
  current : Bool
  date_ranges : List (List String)
deriving DecidableEq, Repr

instance : Inhabited RoasEntry :=
  ⟨{ asn := 0, max_len := 0, pfx := "", tal := "", current := false,
     date_ranges := [] }⟩

/-- Render a day number back to `YYYY-MM-DD` (chrono `format("%Y-%m-%d")`). -/
def formatDate (g : Int) : String :=
  match civilFromDays g.toNat with
  | (y, m, d) => padNum 4 y ++ "-" ++ padNum 2 m ++ "-" ++ padNum 2 d

/-- Model of `RoasRawEntry::to_roas_entry` (roas.rs lines 54-121). `today` is
the day number of `Utc::now().date()`; the Rust current-check compares each
adjusted interval end against `(now - 1 day).date() = today - 1`. -/
def toRoasEntry (e : RoasRawEntry) (fix_gaps : Bool) (today : Int) :
    Option RoasEntry :=
  match parseRanges e.date_ranges with
  | none => none
  | some parsed =>
    let current := parsed.any (fun p => decide (today - 1 ≤ p.2))
    match (if fix_gaps then fixGapsList parsed else some parsed) with
    | none => none
    | some ranges =>
      some { asn := e.asn, max_len := e.max_len, pfx := e.pfx, tal := e.tal,
             current := current,
             date_ranges := ranges.map (fun p => [formatDate p.1, formatDate p.2]) }

/-! ### Pagination (src/src/api/mod.rs) and usize range arithmetic -/

/-- Query-string pagination parameters (struct `Pagination`). -/
structure Pagination where
  page : Option Nat
  page_size : Option Nat
deriving DecidableEq, Repr

/-- Model of `Pagination::extract` (mod.rs lines 24-38): missing page → 0,
missing page_size → 10, requested page_size above `max_page_size` clamped. -/
def Pagination.extract (p : Pagination) (max_page_size : Nat) : Nat × Nat :=
  (match p.page with
   | none => 0
   | some v => v,
   match p.page_size with
   | none => 10
   | some v => if v > max_page_size then max_page_size else v)

/-- Modulus of Rust `usize` on the service's 64-bit targets. -/
def USIZE : Nat := 2 ^ 64

def usizeAdd (a b : Nat) : Nat := (a + b) % USIZE

def usizeMul (a b : Nat) : Nat := a * b % USIZE

/-- Wrapping subtraction on `usize` (release-build overflow semantics;
a debug build panics where this wraps). -/
def usizeSub (a b : Nat) : Nat := (a % USIZE + USIZE - b % USIZE) % USIZE

/-- The store range computed by the handlers
(`low = page * page_size; high = (page + 1) * page_size - 1`,
broker.rs lines 233-234). -/
def brokerRange (page page_size : Nat) : Nat × Nat :=
  (usizeMul page page_size, usizeSub (usizeMul (usizeAdd page 1) page_size) 1)

/-! ### Errors (src/src/api/error.rs) -/

/-- Struct `ApiError`: an HTTP status code plus accumulated messages. -/
structure ApiError where
  status_code : Nat
  errors : List String
deriving DecidableEq, Repr

/-- `ApiError::new_bad_request`. -/
def ApiError.new_bad_request (msg : String) : ApiError :=
  { status_code := 400, errors := [msg] }

/-! ### Broker time parsing (src/src/api/broker.rs lines 110-178) -/

/-- Model of Rust `str::parse::<i64>`: optional sign, then decimal digits,
rejected outside the `i64` range. -/
def parseI64 (s : String) : Option Int :=
  let (sign, ds) : Int × List Char :=
    match s.toList with
    | '-' :: rest => (-1, rest)
    | '+' :: rest => (1, rest)
    | cs => (1, cs)
  match digitsToNat ds with
  | none => none
  | some n =>
    let v : Int := sign * (n : Int)
    if -(2 : Int) ^ 63 ≤ v ∧ v < 2 ^ 63 then some v else none

/-- Model of `NaiveDateTime::from_str` on its canonical
`YYYY-MM-DDTHH:MM:SS` shape, producing seconds since the Unix epoch. -/
def parseDateTime (s : String) : Option Int :=
  match splitStr 'T' s with
  | [dateStr, timeStr] =>
    match parseDate dateStr, splitStr ':' timeStr with
    | some g, [hs, ms, ss] => do
      let h ← parseNatStr hs
      let mi ← parseNatStr ms
      let sec ← parseNatStr ss
      if h < 24 ∧ mi < 60 ∧ sec < 60 then
        some (((g : Int) - (epochDays : Int)) * 86400 +
          (h : Int) * 3600 + (mi : Int) * 60 + (sec : Int))
      else none
    | _, _ => none
  | _ => none

/-- The two-stage time parse of `search_broker`: first try `parse::<i64>`
(a Unix timestamp, `NaiveDateTime::from_timestamp(t, 0)`), then
`NaiveDateTime::from_str`. -/
def parseTs (s : String) : Option Int :=
  match parseI64 s with
  | some v => some v
  | none => parseDateTime s

/-- Model of `humantime::parse_duration` on its single number-plus-unit
shape, in seconds. The handler depends only on the success/failure split of
this parser, not on the full humantime grammar. -/
def parseDuration (s : String) : Option Nat :=
  let cs := s.toList
  let ds := cs.takeWhile (fun c => c.isDigit)
  let us := String.mk (cs.dropWhile (fun c => c.isDigit))
  let unit : Option Nat :=
    if us = "s" ∨ us = "sec" ∨ us = "secs" ∨ us = "second" ∨ us = "seconds" then
      some 1
    else if us = "m" ∨ us = "min" ∨ us = "mins" ∨ us = "minute" ∨ us = "minutes" then
      some 60
    else if us = "h" ∨ us = "hr" ∨ us = "hour" ∨ us = "hours" then some 3600
    else if us = "d" ∨ us = "day" ∨ us = "days" then some 86400
    else none
  match digitsToNat ds, unit with
  | some n, some k => some (n * k)
  | _, _ => none

/-- Parse one optional time parameter as `search_broker` does
(broker.rs lines 112-144): absent stays absent, unparsable is a
Bad Request echoing the literal. -/
def parseTsParam (v : Option String) : Except ApiError (Option Int) :=
  match v with
  | none => .ok none
  | some s =>
    match parseTs s with
    | some t => .ok (some t)
    | none => .error (ApiError.new_bad_request ("cannot parse time string: " ++ s))

/-- The time-window resolution match of `search_broker`
(broker.rs lines 146-178): a lone start plus a duration derives the end,
a lone end plus a duration derives the start, anything else leaves both
bounds untouched (duration ignored). -/
def resolveTimes (ts_start ts_end : Option Int) (duration : Option String) :
    Except ApiError (Option Int × Option Int) :=
  match ts_start, ts_end with
  | some st, none =>
    match duration with
    | none => .ok (some st, none)
    | some ds =>
      match parseDuration ds with
      | some d => .ok (some st, some (st + (d : Int)))
      | none =>
        .error (ApiError.new_bad_request ("cannot parse time duration string: " ++ ds))
  | none, some en =>
    match duration with
    | none => .ok (none, some en)
    | some ds =>
      match parseDuration ds with
      | some d => .ok (some (en - (d : Int)), some en)
      | none =>
        .error (ApiError.new_bad_request ("cannot parse time duration string: " ++ ds))
  | a, b => .ok (a, b)

/-! ### Broker query construction (src/src/api/broker.rs) -/

/-- One predicate appended to the postgrest query builder. -/
inductive DbFilter
  | lte (col val : String)
  | gte (col val : String)
  | ilike (col pat : String)
  | inList (col : String) (vals : List String)
  | eq (col val : String)
deriving DecidableEq, Repr

/-- Render a resolved bound back to text, chrono `format("%Y-%m-%dT%X")`. -/
def formatDateTime (t : Int) : String :=
  let g := Int.ediv t 86400
  let rem := Int.emod t 86400
  match civilFromDays (g + (epochDays : Int)).toNat with
  | (y, m, d) =>
    padNum 4 y ++ "-" ++ padNum 2 m ++ "-" ++ padNum 2 d ++ "T" ++
    padNum 2 (Int.ediv rem 3600).toNat ++ ":" ++
    padNum 2 (Int.emod (Int.ediv rem 60) 60).toNat ++ ":" ++
    padNum 2 (Int.emod rem 60).toNat

/-- The project synonym match of `search_broker` (broker.rs lines 194-206):
recognized synonyms emit one `ilike` pattern on `collector_id`, anything
else emits nothing. -/
def projectFilters (project : String) : List DbFilter :=
  if project = "route-views" ∨ project = "routeviews" ∨ project = "rv" then
    [DbFilter.ilike "collector_id" "route-views%"]
  else if project = "ripe" ∨ project = "ripencc" ∨ project = "riperis" ∨
      project = "ris" then
    [DbFilter.ilike "collector_id" "rrc%"]
  else []

def lowerStr (s : String) : String := String.mk (s.toList.map Char.toLower)

/-- The data_type match of `search_broker` (broker.rs lines 218-228). -/
def dataTypeFilters (dt : String) : List DbFilter :=
  let l := lowerStr dt
  if l = "update" ∨ l = "updates" ∨ l = "u" then [DbFilter.eq "data_type" "update"]
  else if l = "rib" ∨ l = "ribs" ∨ l = "r" then [DbFilter.eq "data_type" "rib"]
  else []

/-- The collectors split (broker.rs lines 208-212): comma-separated,
whitespace-trimmed, passed to an `in` predicate. -/
def collectorsFilters (s : String) : List DbFilter :=
  [DbFilter.inList "collector_id"
    ((splitStr ',' s).map (trimMatches (fun c => c.isWhitespace)))]

/-- Query-string parameters of the broker endpoint
(struct `BrokerSearchQuery`). -/
structure BrokerSearchQuery where
  ts_start : Option String
  ts_end : Option String
  duration : Option String
  project : Option String
  collectors : Option String
  data_type : Option String
deriving DecidableEq, Repr

/-- The store query `search_broker` would issue: filters in builder order,
the sort key, and the inclusive row range. -/
structure BrokerQuery where
  filters : List DbFilter
  orderBy : String
  low : Nat
  high : Nat
  page : Nat
  page_size : Nat
deriving DecidableEq, Repr

/-- Model of the handler `search_broker` (broker.rs lines 100-253) up to the
point where the store request is executed: an `Except.error` means the
handler returns early with the error and no store query is issued. -/
def searchBroker (q : BrokerSearchQuery) (pg : Pagination) :
    Except ApiError BrokerQuery := do
  let tsEnd0 ← parseTsParam q.ts_end
  let tsStart0 ← parseTsParam q.ts_start
  let resolved ← resolveTimes tsStart0 tsEnd0 q.duration
  let timeFilters :=
    (match resolved.2 with
     | none => []
     | some t => [DbFilter.lte "ts_start" (formatDateTime t)]) ++
    (match resolved.1 with
     | none => []
     | some t => [DbFilter.gte "ts_end" (formatDateTime t)])
  let collectorFilters :=
    (match q.project with
     | none => []
     | some p => projectFilters p) ++
    (match q.collectors with
     | none => []
     | some c => collectorsFilters c)
  let otherFilters :=
    match q.data_type with
    | none => []
    | some dt => dataTypeFilters dt
  let pp := pg.extract 1000
  let range := brokerRange pp.1 pp.2
  .ok { filters := timeFilters ++ collectorFilters ++ otherFilters,
        orderBy := "ts_start.asc", low := range.1, high := range.2,
        page := pp.1, page_size := pp.2 }

/-! ### Broker record normalization (broker.rs lines 38-54) -/

/-- Raw store record (struct `BrokerRawEntry`). -/
structure BrokerRawEntry where
  ts_start : String
  ts_end : String
  collector_id : String
  data_type : String
  url : String
  rough_size : Nat
  exact_size : Nat
deriving DecidableEq, Repr

/-- Response record (struct `BrokerEntry`). -/
structure BrokerEntry where
  ts_start : String
  ts_end : String
  project : String
  collector : String
  data_type : String
  url : String
  size : Nat
deriving DecidableEq, Repr

/-- Model of `BrokerRawEntry::to_entry`. -/
def BrokerRawEntry.to_entry (e : BrokerRawEntry) : BrokerEntry :=
  { ts_start := e.ts_start, ts_end := e.ts_end,
    project := if strContains e.collector_id "rrc" then "riperis"
               else "route-views",
    collector := e.collector_id, data_type := e.data_type, url := e.url,
    size := e.rough_size }

/-! ### Concrete records used by the theorems -/

def roasEx1 : RoasRawEntry :=
  { asn := 13335, max_len := 24, pfx := "1.1.1.0/24", tal := "apnic",
    date_ranges := ["[2022-01-01,2022-01-05]", "[2022-01-07,2022-01-10]"] }

def roasEx2 : RoasRawEntry :=
  { asn := 13335, max_len := 24, pfx := "1.1.1.0/24", tal := "apnic",
    date_ranges := ["[2022-01-01,2022-01-05]", "[2022-01-08,2022-01-10]"] }

def roasEmpty : RoasRawEntry :=
  { asn := 13335, max_len := 24, pfx := "1.1.1.0/24", tal := "apnic",
    date_ranges := [] }

def roasSingle : RoasRawEntry :=
  { asn := 701, max_len := 24, pfx := "8.8.8.0/24", tal := "arin",
    date_ranges := ["[2022-01-01,2022-01-05]"] }

/-! ### Theorems for the claims -/

/-- C1: with `fix_gaps = true`, a subsequent interval is merged into the
running interval exactly when its start equals the running end plus 2 days
(one absent calendar day), extending the running end; otherwise the running
interval is flushed and a new one begins, and the final running interval is
always flushed. Concretely, `[2022-01-01,2022-01-05]` followed by
`[2022-01-07,2022-01-10]` merges into one interval, while a follower starting
`2022-01-08` stays separate. -/
theorem gap_merge_spec :
    (∀ cs ce d0 d1 rest, fixGapsGo cs ce ((d0, d1) :: rest) =
      if d0 = ce + 2 then fixGapsGo cs d1 rest
      else (cs, ce) :: fixGapsGo d0 d1 rest) ∧
    (∀ cs ce, fixGapsGo cs ce [] = [(cs, ce)]) ∧
    Option.map RoasEntry.date_ranges (toRoasEntry roasEx1 true 0) =
      some [["2022-01-01", "2022-01-10"]] ∧
    Option.map RoasEntry.date_ranges (toRoasEntry roasEx2 true 0) =
      some [["2022-01-01", "2022-01-05"], ["2022-01-08", "2022-01-10"]] := by
  refine ⟨?_, fun cs ce => rfl, by decide, by decide⟩
  intro cs ce d0 d1 rest
  by_cases h : d0 = ce + 2
  · subst h
    have h3 : ce + 2 - 2 = ce := by ring
    simp [fixGapsGo, h3]
  · have h2 : ¬ ce = d0 - 2 := by omega
    simp [fixGapsGo, h, h2]

/-- C2: the code does not define the empty-interval case: `to_roas_entry`
with `fix_gaps = true` unconditionally indexes `date_ranges[0]`, so a record
with no raw intervals panics (modelled as `none`) instead of returning an
empty normalized list with `current = false`. -/
theorem empty_ranges_panics : toRoasEntry roasEmpty true 0 = none := rfl

/-- C3: an exclusive `(` start marker advances the parsed start date by
exactly one day and an exclusive `)` end marker retracts the parsed end date
by exactly one day; inclusive endpoints leave the parsed dates unchanged. -/
theorem exclusivity_adjustment (s : String) (a b : Int)
    (h : rawDatePair s = some (a, b)) :
    parseDateRange s =
      some (a + (if firstCharIs s '(' then (1 : Int) else 0),
            b - (if lastCharIs s ')' then (1 : Int) else 0)) ∧
    (firstCharIs s '(' = false → lastCharIs s ')' = false →
      parseDateRange s = some (a, b)) := by
  constructor
  · simp [parseDateRange, h]
  · intro h1 h2
    simp [parseDateRange, h, h1, h2]

/-- Witness for C3 at the raw interval string `(2022-01-03,2022-01-10)`. -/
theorem exclusivity_adjustment_witness :
    parseDateRange "(2022-01-03,2022-01-10)" =
      some ((738463 : Int) +
              (if firstCharIs "(2022-01-03,2022-01-10)" '(' then (1 : Int) else 0),
            (738470 : Int) -
              (if lastCharIs "(2022-01-03,2022-01-10)" ')' then (1 : Int) else 0)) :=
  (exclusivity_adjustment "(2022-01-03,2022-01-10)" 738463 738470 (by decide)).1

/-- C4: the `current` flag of a normalized record is true exactly when some
exclusivity-adjusted raw interval ends on or after `today - 1`; it is
computed over all raw intervals before the gap merge, so running the handler
with or without `fix_gaps` yields the same flag. -/
theorem current_flag_spec (e : RoasRawEntry) (today : Int) (out out' : RoasEntry)
    (h1 : toRoasEntry e true today = some out)
    (h2 : toRoasEntry e false today = some out') :
    (out.current = true ↔
      ∃ p ∈ (parseRanges e.date_ranges).getD [], today - 1 ≤ p.2) ∧
    out'.current = out.current := by
  cases hp : parseRanges e.date_ranges with
  | none => simp [toRoasEntry, hp] at h1
  | some parsed =>
    cases hfg : fixGapsList parsed with
    | none => simp [toRoasEntry, hp, hfg] at h1
    | some r =>
      simp [toRoasEntry, hp, hfg] at h1 h2
      subst h1
      subst h2
      refine ⟨?_, rfl⟩
      simp [hp, List.any_eq_true]

/-- Witness for C4 on a record with one interval ending 2022-01-05, with
`today` the day number 0 (so the interval end is well past `today - 1`). -/
theorem current_flag_spec_witness :
    (((toRoasEntry roasSingle true 0).getD default).current = true ↔
      ∃ p ∈ (parseRanges roasSingle.date_ranges).getD [], (0 : Int) - 1 ≤ p.2) ∧
    ((toRoasEntry roasSingle false 0).getD default).current =
      ((toRoasEntry roasSingle true 0).getD default).current :=
  current_flag_spec roasSingle 0
    ((toRoasEntry roasSingle true 0).getD default)
    ((toRoasEntry roasSingle false 0).getD default)
    (by decide) (by decide)

/-- C5: time-window resolution — a parsed start with no end plus a parsable
duration resolves the end to start + duration; a parsed end with no start
resolves the start to end − duration; with both bounds present, or neither,
the duration parameter is ignored. -/
theorem resolve_times_spec :
    (∀ (t : Int) (ds : String) (d : Nat), parseDuration ds = some d →
      resolveTimes (some t) none (some ds) = .ok (some t, some (t + (d : Int)))) ∧
    (∀ (t : Int) (ds : String) (d : Nat), parseDuration ds = some d →
      resolveTimes none (some t) (some ds) = .ok (some (t - (d : Int)), some t)) ∧
    (∀ (a b : Int) (dur : Option String),
      resolveTimes (some a) (some b) dur = .ok (some a, some b)) ∧
    (∀ dur : Option String, resolveTimes none none dur = .ok (none, none)) := by
  refine ⟨?_, ?_, fun a b dur => rfl, fun dur => rfl⟩
  · intro t ds d h
    simp [resolveTimes, h]
  · intro t ds d h
    simp [resolveTimes, h]

/-- Witness for C5: start 100 plus duration `2h` resolves the end to 7300. -/
theorem resolve_times_spec_witness :
    resolveTimes (some 100) none (some "2h") = .ok (some 100, some 7300) :=
  resolve_times_spec.1 100 "2h" 7200 (by decide)

/-- C6 counterexample: requesting `page = 0, page_size = 0` passes through
`Pagination::extract` unchanged, but the range-end computation
`(page + 1) * page_size - 1` underflows `usize`, so the store range is
`[0, 2^64 - 1]` — the whole table, not an empty range. -/
theorem pagination_zero_size_counterexample :
    Pagination.extract { page := some 0, page_size := some 0 } 1000 = (0, 0) ∧
    brokerRange 0 0 = (0, 2 ^ 64 - 1) ∧
    ¬ ((2 ^ 64 - 1) + 1 - 0 = 0) := by
  refine ⟨rfl, by decide, by norm_num⟩

/-- C6 (amended): a missing page defaults to 0 and a missing page_size to 10;
a requested page_size above `max_size` is clamped, so at the call sites
(`max_size = 1000`) the normalized page_size never exceeds 1000; and whenever
`page_size ≥ 1` and `(page + 1) * page_size` does not overflow `usize`, the
store range is the inclusive `[page * page_size, page * page_size + page_size - 1]`
spanning exactly `page_size` positions. `page_size = 0` is the exception:
the range-end computation underflows instead of producing an empty range. -/
theorem pagination_spec :
    (∀ pg m, (Pagination.extract pg m).1 = pg.page.getD 0) ∧
    (∀ m, (Pagination.extract { page := none, page_size := none } m).2 = 10) ∧
    (∀ p ps m, Pagination.extract { page := p, page_size := some ps } m =
      (p.getD 0, if ps > m then m else ps)) ∧
    (∀ pg, (Pagination.extract pg 1000).2 ≤ 1000) ∧
    (∀ page ps, 1 ≤ ps → (page + 1) * ps < 2 ^ 64 →
      brokerRange page ps = (page * ps, page * ps + ps - 1) ∧
      (page * ps + ps - 1) + 1 - page * ps = ps) := by
  refine ⟨?_, fun m => rfl, ?_, ?_, ?_⟩
  · intro pg m
    obtain ⟨pp, pps⟩ := pg
    cases pp <;> rfl
  · intro p ps m
    cases p <;> rfl
  · intro pg
    obtain ⟨pp, pps⟩ := pg
    cases pps with
    | none => simp [Pagination.extract]
    | some v =>
      simp only [Pagination.extract]
      split <;> omega
  · intro page ps h1 h2
    have hU : (2 : Nat) ^ 64 = 18446744073709551616 := by norm_num
    rw [hU] at h2
    have h3 : page * ps ≤ (page + 1) * ps :=
      Nat.mul_le_mul_right ps (Nat.le_succ page)
    have h4 : page + 1 ≤ (page + 1) * ps := by
      calc page + 1 = (page + 1) * 1 := by ring
        _ ≤ (page + 1) * ps := Nat.mul_le_mul_left (page + 1) h1
    have h5 : 1 ≤ (page + 1) * ps := by omega
    have hadd : usizeAdd page 1 = page + 1 := by
      simp only [usizeAdd, USIZE, hU]
      omega
    have hmul : usizeMul (page + 1) ps = (page + 1) * ps := by
      simp only [usizeMul, USIZE, hU]
      omega
    have hlow : usizeMul page ps = page * ps := by
      simp only [usizeMul, USIZE, hU]
      omega
    have hsub : usizeSub ((page + 1) * ps) 1 = (page + 1) * ps - 1 := by
      simp only [usizeSub, USIZE, hU]
      omega
    have hrange : brokerRange page ps = (page * ps, (page + 1) * ps - 1) := by
      simp only [brokerRange, hadd, hmul, hlow, hsub]
    refine ⟨?_, ?_⟩
    · rw [hrange]
      have : (page + 1) * ps - 1 = page * ps + ps - 1 := by ring_nf
      rw [this]
    · omega

/-- Witness for C6 (amended): page 2 with page_size 10 yields the inclusive
range `[20, 29]` of width 10. -/
theorem pagination_spec_witness :
    brokerRange 2 10 = (2 * 10, 2 * 10 + 10 - 1) ∧
    (2 * 10 + 10 - 1) + 1 - 2 * 10 = 10 :=
  pagination_spec.2.2.2.2 2 10 (by decide) (by norm_num)

/-- C7 counterexample: a request with no time bounds at all and an
unparsable duration does not produce a Bad Request — the duration is never
even examined, and the handler issues an unfiltered store query. -/
theorem duration_ignored_counterexample :
    parseDuration "not-a-duration" = none ∧
    searchBroker
      { ts_start := none, ts_end := none, duration := some "not-a-duration",
        project := none, collectors := none, data_type := none }
      { page := none, page_size := none } =
      .ok { filters := [], orderBy := "ts_start.asc", low := 0, high := 9,
            page := 0, page_size := 10 } := by
  exact ⟨by decide, rfl⟩

/-- C7 (amended): an unparsable `ts_end` or `ts_start` always yields a
Bad Request whose message embeds an offending literal, with no store query
issued (the handler returns before building one); `ts_end` is parsed first,
so when both bounds are unparsable its literal is the one echoed. An
unparsable duration yields such a Bad Request only when exactly one of the
two time bounds was given — with both bounds present and parsable, or with
neither bound present, the duration string is ignored entirely and the
query proceeds. -/
theorem bad_request_spec :
    (∀ q pg s, q.ts_end = some s → parseTs s = none →
      searchBroker q pg =
        .error (ApiError.new_bad_request ("cannot parse time string: " ++ s)) ∧
      ∃ pre, "cannot parse time string: " ++ s = pre ++ s) ∧
    (∀ q pg s, q.ts_start = some s → parseTs s = none →
      (q.ts_end = none ∨ ∃ s2 t2, q.ts_end = some s2 ∧ parseTs s2 = some t2) →
      searchBroker q pg =
        .error (ApiError.new_bad_request ("cannot parse time string: " ++ s)) ∧
      ∃ pre, "cannot parse time string: " ++ s = pre ++ s) ∧
    (∀ q pg,
      ((∃ s, q.ts_start = some s ∧ parseTs s = none) ∨
       (∃ s, q.ts_end = some s ∧ parseTs s = none)) →
      ∃ bad, (q.ts_start = some bad ∨ q.ts_end = some bad) ∧ parseTs bad = none ∧
        searchBroker q pg =
          .error (ApiError.new_bad_request ("cannot parse time string: " ++ bad))) ∧
    (∀ q pg s t ds, q.ts_start = some s → parseTs s = some t → q.ts_end = none →
      q.duration = some ds → parseDuration ds = none →
      searchBroker q pg =
        .error (ApiError.new_bad_request
          ("cannot parse time duration string: " ++ ds)) ∧
      ∃ pre, "cannot parse time duration string: " ++ ds = pre ++ ds) ∧
    (∀ q pg s t ds, q.ts_start = none → q.ts_end = some s → parseTs s = some t →
      q.duration = some ds → parseDuration ds = none →
      searchBroker q pg =
        .error (ApiError.new_bad_request
          ("cannot parse time duration string: " ++ ds))) ∧
    (∀ q pg s1 t1 s2 t2, q.ts_start = some s1 → parseTs s1 = some t1 →
      q.ts_end = some s2 → parseTs s2 = some t2 →
      searchBroker q pg = searchBroker { q with duration := none } pg ∧
      ∃ out, searchBroker q pg = .ok out) ∧
    (∀ q pg, q.ts_start = none → q.ts_end = none →
      searchBroker q pg = searchBroker { q with duration := none } pg ∧
      ∃ out, searchBroker q pg = .ok out) := by
  refine ⟨?_, ?_, ?_, ?_, ?_, ?_, ?_⟩
  · intro q pg s hend hs
    refine ⟨?_, "cannot parse time string: ", rfl⟩
    simp [searchBroker, parseTsParam, hend, hs, Bind.bind, Except.bind]
  · intro q pg s hstart hs hor
    refine ⟨?_, "cannot parse time string: ", rfl⟩
    rcases hor with hend | ⟨s2, t2, hend, hs2⟩
    · simp [searchBroker, parseTsParam, hend, hstart, hs, Bind.bind, Except.bind]
    · simp [searchBroker, parseTsParam, hend, hs2, hstart, hs, Bind.bind,
        Except.bind]
  · intro q pg h
    cases hend : q.ts_end with
    | some s2 =>
      cases hs2 : parseTs s2 with
      | none =>
        refine ⟨s2, Or.inr rfl, hs2, ?_⟩
        simp [searchBroker, parseTsParam, hend, hs2, Bind.bind, Except.bind]
      | some t2 =>
        rcases h with ⟨s, hstart, hs⟩ | ⟨s, hend2, hs⟩
        · refine ⟨s, Or.inl hstart, hs, ?_⟩
          simp [searchBroker, parseTsParam, hend, hs2, hstart, hs, Bind.bind,
            Except.bind]
        · rw [hend, Option.some.injEq] at hend2
          subst hend2
          rw [hs] at hs2
          simp at hs2
    | none =>
      rcases h with ⟨s, hstart, hs⟩ | ⟨s, hend2, hs⟩
      · refine ⟨s, Or.inl hstart, hs, ?_⟩
        simp [searchBroker, parseTsParam, hend, hstart, hs, Bind.bind,
          Except.bind]
      · rw [hend] at hend2
        simp at hend2
  · intro q pg s t ds hstart hs hend hdur hd
    refine ⟨?_, "cannot parse time duration string: ", rfl⟩
    simp [searchBroker, parseTsParam, resolveTimes, hstart, hs, hend, hdur, hd,
      Bind.bind, Except.bind]
  · intro q pg s t ds hstart hend hs hdur hd
    simp [searchBroker, parseTsParam, resolveTimes, hstart, hs, hend, hdur, hd,
      Bind.bind, Except.bind]
  · intro q pg s1 t1 s2 t2 hstart hs1 hend hs2
    have hres : ∀ dur, resolveTimes (some t1) (some t2) dur =
        .ok (some t1, some t2) := fun _ => rfl
    refine ⟨?_, ?_⟩
    · simp [searchBroker, parseTsParam, hstart, hs1, hend, hs2, hres,
        Bind.bind, Except.bind]
    · simp only [searchBroker, parseTsParam, hstart, hs1, hend, hs2, hres,
        Bind.bind, Except.bind]
      exact ⟨_, rfl⟩
  · intro q pg hstart hend
    have hres : ∀ dur, resolveTimes none none dur = .ok (none, none) :=
      fun _ => rfl
    refine ⟨?_, ?_⟩
    · simp [searchBroker, parseTsParam, hstart, hend, hres, Bind.bind,
        Except.bind]
    · simp only [searchBroker, parseTsParam, hstart, hend, hres, Bind.bind,
        Except.bind]
      exact ⟨_, rfl⟩

/-- Witness for C7 (amended): `ts_end = "nope"` is rejected with the literal
echoed in the message. -/
theorem bad_request_spec_witness :
    searchBroker
      { ts_start := none, ts_end := some "nope", duration := none,
        project := none, collectors := none, data_type := none }
      { page := none, page_size := none } =
      .error (ApiError.new_bad_request ("cannot parse time string: " ++ "nope")) ∧
    ∃ pre, "cannot parse time string: " ++ "nope" = pre ++ "nope" :=
  bad_request_spec.1
    { ts_start := none, ts_end := some "nope", duration := none,
      project := none, collectors := none, data_type := none }
    { page := none, page_size := none } "nope" rfl (by decide)

/-- C8: a project value outside the recognized synonym sets emits no
collector_id predicate and is never an error (e.g. `project=bogus` succeeds
with no predicate at all), while each recognized synonym emits its single
pattern predicate. -/
theorem project_synonyms_spec :
    (∀ s, s ≠ "route-views" → s ≠ "routeviews" → s ≠ "rv" → s ≠ "ripe" →
      s ≠ "ripencc" → s ≠ "riperis" → s ≠ "ris" → projectFilters s = []) ∧
    (projectFilters "route-views" = [DbFilter.ilike "collector_id" "route-views%"] ∧
     projectFilters "routeviews" = [DbFilter.ilike "collector_id" "route-views%"] ∧
     projectFilters "rv" = [DbFilter.ilike "collector_id" "route-views%"] ∧
     projectFilters "ripe" = [DbFilter.ilike "collector_id" "rrc%"] ∧
     projectFilters "ripencc" = [DbFilter.ilike "collector_id" "rrc%"] ∧
     projectFilters "riperis" = [DbFilter.ilike "collector_id" "rrc%"] ∧
     projectFilters "ris" = [DbFilter.ilike "collector_id" "rrc%"]) ∧
    searchBroker
      { ts_start := none, ts_end := none, duration := none,
        project := some "bogus", collectors := none, data_type := none }
      { page := none, page_size := none } =
      .ok { filters := [], orderBy := "ts_start.asc", low := 0, high := 9,
            page := 0, page_size := 10 } := by
  refine ⟨?_, by decide, rfl⟩
  intro s h1 h2 h3 h4 h5 h6 h7
  simp [projectFilters, h1, h2, h3, h4, h5, h6, h7]

/-- Witness for C8 at the unrecognized value `bogus`. -/
theorem project_synonyms_spec_witness : projectFilters "bogus" = [] :=
  project_synonyms_spec.1 "bogus" (by decide) (by decide) (by decide)
    (by decide) (by decide) (by decide) (by decide)

/-- Helper for C9: the merge loop leaves a list unchanged when no consecutive
pair is separated by exactly one calendar day. -/
theorem fixGapsGo_fixed (rest : List (Int × Int)) : ∀ cs ce : Int,
    List.Chain' (fun a b : Int × Int => b.1 ≠ a.2 + 2) ((cs, ce) :: rest) →
    fixGapsGo cs ce rest = (cs, ce) :: rest := by
  induction rest with
  | nil => intro cs ce _; rfl
  | cons hd tl ih =>
    intro cs ce h
    obtain ⟨d0, d1⟩ := hd
    rw [List.chain'_cons] at h
    have hne : ¬ ce = d0 - 2 := by
      have := h.1
      omega
    simp [fixGapsGo, hne, ih d0 d1 h.2]

/-- C9: the gap merge is idempotent — on a nonempty interval list in which no
consecutive pair of intervals is separated by exactly one calendar day
(i.e. no later start equals the previous end plus 2 days), the `fix_gaps`
pass returns the identical list. -/
theorem fix_gaps_idempotent (cs ce : Int) (rest : List (Int × Int))
    (h : List.Chain' (fun a b : Int × Int => b.1 ≠ a.2 + 2) ((cs, ce) :: rest)) :
    fixGapsList ((cs, ce) :: rest) = some ((cs, ce) :: rest) := by
  simp [fixGapsList, fixGapsGo_fixed rest cs ce h]

/-- Witness for C9 on the already-merged list `[(0, 1), (5, 6)]`
(gap of more than one day). -/
theorem fix_gaps_idempotent_witness :
    fixGapsList [((0 : Int), (1 : Int)), (5, 6)] = some [(0, 1), (5, 6)] :=
  fix_gaps_idempotent 0 1 [(5, 6)]
    (List.chain'_cons.mpr ⟨by norm_num, List.chain'_singleton _⟩)

/-- C10: `to_entry` labels a record `riperis` exactly when its collector_id
contains the substring `rrc` and `route-views` otherwise, reports
`rough_size` as the entry size, and copies `ts_start`, `ts_end`,
`collector_id`, `data_type` and `url` unchanged. -/
theorem to_entry_spec (e : BrokerRawEntry) :
    ((e.to_entry.project = "riperis" ↔ strContains e.collector_id "rrc" = true) ∧
     (e.to_entry.project = "route-views" ↔
       strContains e.collector_id "rrc" = false)) ∧
    e.to_entry.size = e.rough_size ∧
    e.to_entry.ts_start = e.ts_start ∧
    e.to_entry.ts_end = e.ts_end ∧
    e.to_entry.collector = e.collector_id ∧
    e.to_entry.data_type = e.data_type ∧
    e.to_entry.url = e.url := by
  refine ⟨⟨?_, ?_⟩, rfl, rfl, rfl, rfl, rfl, rfl⟩ <;>
    cases h : strContains e.collector_id "rrc" <;>
      simp [BrokerRawEntry.to_entry, h]

end BgpkitApi
